import Mathlib

/-!
Verification of the interactive canvas engine: data model, shape synthesis,
viewport transform, gesture finalization, eraser hit-testing and the
snapshot history, shallowly embedded from the TypeScript sources
(`src/components/Canvas.tsx`, `src/EditorView.tsx`, `src/unnamed/part_001`).
JavaScript numbers are modelled as real numbers; identifiers as integers.
-/

namespace WriteApp

noncomputable section

/-- Model of `Point` from `Canvas.tsx`: `{x, y}` world-space coordinates. -/
structure Point where
  x : ℝ
  y : ℝ
deriving Inhabited

/-- Model of `Bounds` from `EditorView.tsx`. -/
structure Bounds where
  x : ℝ
  y : ℝ
  width : ℝ
  height : ℝ
deriving Inhabited

/-- Model of `Stroke` from `Canvas.tsx` (the `tool` field is always `"pen"`). -/
structure Stroke where
  id : ℤ
  points : List Point
  tool : String
  strokeWidth : ℝ
  color : String
deriving Inhabited

/-- Model of `RecognizedText` from `EditorView.tsx`. -/
structure TextItem where
  id : ℤ
  text : String
  bounds : Bounds
  fontFamily : String
  fontSize : ℝ
deriving Inhabited

/-- Model of `Page` from `EditorView.tsx`. -/
structure Page where
  id : ℤ
  strokes : List Stroke
  texts : List TextItem
deriving Inhabited

/-- Model of `ShapeType` from `EditorView.tsx`. -/
inductive ShapeType where
  | rectangle | square | circle | oval | line | arrow
  | triangle | rightTriangle | rhombus | parallelogram | trapezoid
  | pentagon | hexagon | star
  | cuboid | cone | pyramid | cylinder | sphere
deriving DecidableEq, Inhabited

/-- Model of `getDistance` from `Canvas.tsx`. -/
def getDistance (p1 p2 : Point) : ℝ :=
  Real.sqrt ((p2.x - p1.x) ^ 2 + (p2.y - p1.y) ^ 2)

/-- Model of `getMidpoint` from `Canvas.tsx`. -/
def getMidpoint (p1 p2 : Point) : Point :=
  ⟨(p1.x + p2.x) / 2, (p1.y + p2.y) / 2⟩

/-- Model of `pointInBounds` from `Canvas.tsx` (inclusive on all four edges). -/
def pointInBounds (p : Point) (b : Bounds) : Prop :=
  p.x ≥ b.x ∧ p.x ≤ b.x + b.width ∧ p.y ≥ b.y ∧ p.y ≤ b.y + b.height

/-- Model of `boundsIntersect` from `Canvas.tsx`. -/
def boundsIntersect (b1 b2 : Bounds) : Prop :=
  b1.x < b2.x + b2.width ∧ b1.x + b1.width > b2.x ∧
    b1.y < b2.y + b2.height ∧ b1.y + b1.height > b2.y

/-- Model of `Math.sign(v || 1)` as used in the square branch of
`createStrokesForShape`: a zero drag component falls back to `1`. -/
def jsSignOr1 (x : ℝ) : ℝ :=
  if x = 0 then 1 else if 0 < x then 1 else -1

/-- Model of `Math.atan2` via the complex argument (range `(-π, π]`). -/
def jsAtan2 (y x : ℝ) : ℝ := Complex.arg ⟨x, y⟩

/-- Model of the ellipse-walk step count
`Math.max(32, Math.floor(Math.PI * rsum) / 4)` (the division is outside the
floor, so the value may be fractional). -/
def ellipseSteps (rsum : ℝ) : ℝ :=
  max 32 (((⌊Real.pi * rsum⌋ : ℤ) : ℝ) / 4)

/-- Angles visited by the JS loop `for (i = 0; i <= steps; i++)` with
`angle = (i / steps) * 2 * Math.PI`. -/
def walkAngles (steps : ℝ) : List ℝ :=
  (List.range (⌊steps⌋.toNat + 1)).map fun i => ((i : ℝ) / steps) * (2 * Real.pi)

/-- Model of the common tail of `createStrokesForShape`: an accumulated point
list becomes no stroke when empty and a single stroke otherwise. -/
def strokesFromPoints (idBase : ℤ) (strokeWidth : ℝ) (color : String)
    (points : List Point) : List Stroke :=
  if points.length = 0 then [] else [⟨idBase, points, "pen", strokeWidth, color⟩]

/-- Polygon side counts from the `sides` lookup table in `createStrokesForShape`. -/
def polygonSides : ShapeType → ℕ
  | ShapeType.pentagon => 5
  | ShapeType.hexagon => 6
  | ShapeType.star => 5
  | ShapeType.rhombus => 4
  | ShapeType.parallelogram => 4
  | ShapeType.trapezoid => 4
  | _ => 0

/-- Model of `createStrokesForShape` from `Canvas.tsx`. `idBase` stands for
the `Date.now()` timestamp taken at the call. -/
def createStrokesForShape (idBase : ℤ) (start finish : Point) (ty : ShapeType)
    (strokeWidth : ℝ) (color : String) : List Stroke :=
  let x1 := start.x
  let y1 := start.y
  let x2 := finish.x
  let y2 := finish.y
  let width := x2 - x1
  let height := y2 - y1
  let cx := x1 + width / 2
  let cy := y1 + height / 2
  let rx := |width| / 2
  let ry := |height| / 2
  match ty with
  | ShapeType.rectangle =>
      strokesFromPoints idBase strokeWidth color
        [⟨x1, y1⟩, ⟨x2, y1⟩, ⟨x2, y2⟩, ⟨x1, y2⟩, ⟨x1, y1⟩]
  | ShapeType.square =>
      let size := max |width| |height|
      let finalX2 := x1 + size * jsSignOr1 width
      let finalY2 := y1 + size * jsSignOr1 height
      strokesFromPoints idBase strokeWidth color
        [⟨x1, y1⟩, ⟨finalX2, y1⟩, ⟨finalX2, finalY2⟩, ⟨x1, finalY2⟩, ⟨x1, y1⟩]
  | ShapeType.circle | ShapeType.oval =>
      let radiusX := rx
      let radiusY := if ty = ShapeType.circle then rx else ry
      if radiusX < 1 ∨ radiusY < 1 then []
      else
        strokesFromPoints idBase strokeWidth color
          ((walkAngles (ellipseSteps (radiusX + radiusY))).map fun a =>
            ⟨cx + radiusX * Real.cos a, cy + radiusY * Real.sin a⟩)
  | ShapeType.line =>
      strokesFromPoints idBase strokeWidth color [⟨x1, y1⟩, ⟨x2, y2⟩]
  | ShapeType.arrow =>
      let angle := jsAtan2 (y2 - y1) (x2 - x1)
      let arrowLength := min 20 (getDistance start finish / 3)
      let p1 : Point := ⟨x2, y2⟩
      let p2 : Point := ⟨x2 - arrowLength * Real.cos (angle - Real.pi / 6),
                         y2 - arrowLength * Real.sin (angle - Real.pi / 6)⟩
      let p3 : Point := ⟨x2 - arrowLength * Real.cos (angle + Real.pi / 6),
                         y2 - arrowLength * Real.sin (angle + Real.pi / 6)⟩
      [⟨idBase, [⟨x1, y1⟩, ⟨x2, y2⟩], "pen", strokeWidth, color⟩,
       ⟨idBase + 1, [p2, p1, p3], "pen", strokeWidth, color⟩]
  | ShapeType.triangle =>
      let side := getDistance start finish
      if side < 2 then []
      else
        let h := side * Real.sqrt 3 / 2
        let mx := (x1 + x2) / 2
        let my := (y1 + y2) / 2
        let dx := x2 - x1
        let dy := y2 - y1
        strokesFromPoints idBase strokeWidth color
          [⟨x1, y1⟩, ⟨x2, y2⟩, ⟨mx - h * (dy / side), my + h * (dx / side)⟩, ⟨x1, y1⟩]
  | ShapeType.rightTriangle =>
      strokesFromPoints idBase strokeWidth color
        [⟨x1, y1⟩, ⟨x1, y2⟩, ⟨x2, y2⟩, ⟨x1, y1⟩]
  | ShapeType.pentagon | ShapeType.hexagon | ShapeType.star | ShapeType.rhombus
  | ShapeType.parallelogram | ShapeType.trapezoid =>
      let sides := polygonSides ty
      let radius := Real.sqrt (rx * rx + ry * ry)
      if radius < 2 then []
      else if ty = ShapeType.rhombus then
        strokesFromPoints idBase strokeWidth color
          [⟨cx, y1⟩, ⟨x2, cy⟩, ⟨cx, y2⟩, ⟨x1, cy⟩, ⟨cx, y1⟩]
      else if ty = ShapeType.parallelogram then
        let offset := rx * 0.25
        strokesFromPoints idBase strokeWidth color
          [⟨x1 + offset, y1⟩, ⟨x2 + offset, y1⟩, ⟨x2 - offset, y2⟩,
           ⟨x1 - offset, y2⟩, ⟨x1 + offset, y1⟩]
      else if ty = ShapeType.trapezoid then
        let offset := rx * 0.25
        strokesFromPoints idBase strokeWidth color
          [⟨x1 + offset, y1⟩, ⟨x2 - offset, y1⟩, ⟨x2, y2⟩,
           ⟨x1, y2⟩, ⟨x1 + offset, y1⟩]
      else
        let count := sides * (if ty = ShapeType.star then 2 else 1)
        let pts := (List.range count).map fun i =>
          let r := if ty = ShapeType.star then
              (if i % 2 = 0 then radius else radius / 2.5)
            else radius
          let angle := -(Real.pi / 2) + ((i : ℝ) / (sides : ℝ)) * (2 * Real.pi)
          (⟨cx + r * Real.cos angle, cy + r * Real.sin angle⟩ : Point)
        strokesFromPoints idBase strokeWidth color (pts ++ pts.take 1)
  | ShapeType.cuboid =>
      if |width| < 5 ∨ |height| < 5 then []
      else
        let depthX := width * 0.4
        let depthY := height * (-0.4)
        let r1 : List Point := [⟨x1, y1⟩, ⟨x2, y1⟩, ⟨x2, y2⟩, ⟨x1, y2⟩]
        let r2 := r1.map fun p => (⟨p.x + depthX, p.y + depthY⟩ : Point)
        [⟨idBase, r1 ++ r1.take 1, "pen", strokeWidth, color⟩,
         ⟨idBase + 1, r2 ++ r2.take 1, "pen", strokeWidth, color⟩,
         ⟨idBase + 2, [r1.getI 0, r2.getI 0], "pen", strokeWidth, color⟩,
         ⟨idBase + 3, [r1.getI 1, r2.getI 1], "pen", strokeWidth, color⟩,
         ⟨idBase + 4, [r1.getI 2, r2.getI 2], "pen", strokeWidth, color⟩,
         ⟨idBase + 5, [r1.getI 3, r2.getI 3], "pen", strokeWidth, color⟩]
  | ShapeType.cone =>
      let radiusX := rx
      let radiusY := |height| * 0.2
      let apex : Point := ⟨cx, y1⟩
      let baseCy := y2 - radiusY
      if radiusX < 1 ∨ radiusY < 1 then []
      else
        let basePoints := (walkAngles (ellipseSteps (radiusX + radiusY))).map fun a =>
          (⟨cx + radiusX * Real.cos a, baseCy + radiusY * Real.sin a⟩ : Point)
        [⟨idBase, basePoints, "pen", strokeWidth, color⟩,
         ⟨idBase + 1, [apex, ⟨cx - radiusX, baseCy⟩], "pen", strokeWidth, color⟩,
         ⟨idBase + 2, [apex, ⟨cx + radiusX, baseCy⟩], "pen", strokeWidth, color⟩]
  | ShapeType.pyramid =>
      if |width| < 5 ∨ |height| < 5 then []
      else
        let apex : Point := ⟨cx, y1⟩
        let base : List Point :=
          [⟨x1, y2⟩, ⟨x2, y2⟩, ⟨x2 + rx * 0.3, y2 - ry * 0.5⟩, ⟨x1 + rx * 0.3, y2 - ry * 0.5⟩]
        [⟨idBase, [apex, base.getI 0], "pen", strokeWidth, color⟩,
         ⟨idBase + 1, [apex, base.getI 1], "pen", strokeWidth, color⟩,
         ⟨idBase + 2, [apex, base.getI 3], "pen", strokeWidth, color⟩,
         ⟨idBase + 3, [base.getI 0, base.getI 1], "pen", strokeWidth, color⟩,
         ⟨idBase + 4, [base.getI 0, base.getI 3], "pen", strokeWidth, color⟩]
  | ShapeType.cylinder =>
      if rx < 1 ∨ |height| < 5 then []
      else
        let ryEllipse := min ry (rx * 0.3)
        let angles := walkAngles (ellipseSteps (rx + ryEllipse))
        let topEllipse := angles.map fun a =>
          (⟨cx + rx * Real.cos a, y1 + ryEllipse * Real.sin a⟩ : Point)
        let bottomEllipse := angles.map fun a =>
          (⟨cx + rx * Real.cos a, y2 + ryEllipse * Real.sin a⟩ : Point)
        [⟨idBase, topEllipse, "pen", strokeWidth, color⟩,
         ⟨idBase + 1, bottomEllipse, "pen", strokeWidth, color⟩,
         ⟨idBase + 2, [⟨x1, y1 + ryEllipse⟩, ⟨x1, y2 + ryEllipse⟩], "pen", strokeWidth, color⟩,
         ⟨idBase + 3, [⟨x2, y1 + ryEllipse⟩, ⟨x2, y2 + ryEllipse⟩], "pen", strokeWidth, color⟩]
  | ShapeType.sphere =>
      if rx < 2 then []
      else
        let angles := walkAngles (ellipseSteps (rx + ry))
        let circlePoints := angles.map fun a =>
          (⟨cx + rx * Real.cos a, cy + ry * Real.sin a⟩ : Point)
        let hEllipse := angles.map fun a =>
          (⟨cx + rx * Real.cos a, cy + ry * 0.3 * Real.sin a⟩ : Point)
        let vEllipse := angles.map fun a =>
          (⟨cx + rx * 0.3 * Real.cos a, cy + ry * Real.sin a⟩ : Point)
        [⟨idBase, circlePoints, "pen", strokeWidth, color⟩,
         ⟨idBase + 1, hEllipse, "pen", strokeWidth * 0.7, color⟩,
         ⟨idBase + 2, vEllipse, "pen", strokeWidth * 0.7, color⟩]

/-- Shape kinds whose branch of `createStrokesForShape` carries a
degenerate-drag guard that can return the empty list. -/
def hasDegenerateGuard : ShapeType → Bool
  | ShapeType.rectangle => false
  | ShapeType.square => false
  | ShapeType.line => false
  | ShapeType.arrow => false
  | ShapeType.rightTriangle => false
  | _ => true

/-- Model of `MIN_ZOOM` from `Canvas.tsx`. -/
def MIN_ZOOM : ℝ := 0.2

/-- Model of `MAX_ZOOM` from `Canvas.tsx`. -/
def MAX_ZOOM : ℝ := 5

/-- Model of `ViewTransform` from `EditorView.tsx`: device-space affine map
`device = world * scale + offset`. -/
structure ViewTransform where
  scale : ℝ
  offsetX : ℝ
  offsetY : ℝ
deriving Inhabited

/-- The initial transform created in `EditorView.tsx`
(`useState({ scale: 1, offsetX: 0, offsetY: 0 })`). -/
def initialViewTransform : ViewTransform := ⟨1, 0, 0⟩

/-- Device-to-world conversion from `getPointInWorldSpace` in `Canvas.tsx`:
`world = (physical - offset) / scale`, applied to a physical device point. -/
def toWorld (t : ViewTransform) (physical : Point) : Point :=
  ⟨(physical.x - t.offsetX) / t.scale, (physical.y - t.offsetY) / t.scale⟩

/-- Scale clamping `Math.min(Math.max(s, MIN_ZOOM), MAX_ZOOM)` shared by
`handleWheel` and the two-contact pinch branch of `handlePointerMove`. -/
def clampZoom (s : ℝ) : ℝ := min (max s MIN_ZOOM) MAX_ZOOM

/-- Offset recomputation shared by `handleWheel` and the pinch branch of
`handlePointerMove` in `Canvas.tsx`: given an already clamped `newScale`,
`offset' = focal - (focal - offset) * (newScale / scale)`. -/
def zoomAt (t : ViewTransform) (focal : Point) (newScale : ℝ) : ViewTransform :=
  ⟨newScale,
   focal.x - (focal.x - t.offsetX) * (newScale / t.scale),
   focal.y - (focal.y - t.offsetY) * (newScale / t.scale)⟩

/-- Model of `handleWheel` from `Canvas.tsx`, acting on the physical focal
point of the wheel event. -/
def handleWheel (t : ViewTransform) (physical : Point) (deltaY : ℝ) : ViewTransform :=
  let scroll := deltaY * (-0.005)
  let newScale := clampZoom (t.scale * (1 + scroll))
  zoomAt t physical newScale

/-- Model of the single-contact hand-tool pan branch of `handlePointerMove`:
the device-pixel delta is added to the offset. -/
def panBy (t : ViewTransform) (dx dy : ℝ) : ViewTransform :=
  ⟨t.scale, t.offsetX + dx, t.offsetY + dy⟩

/-- Model of the two-contact pinch branch of `handlePointerMove`: clamped
zoom anchored at the physical midpoint, composed with the midpoint pan delta. -/
def handlePinch (t : ViewTransform) (physicalMid : Point)
    (scaleFactor panDX panDY : ℝ) : ViewTransform :=
  let newScale := clampZoom (t.scale * scaleFactor)
  let anchored := zoomAt t physicalMid newScale
  ⟨anchored.scale, anchored.offsetX + panDX, anchored.offsetY + panDY⟩

/-- A viewport operation: pan drag, wheel zoom, or two-contact pinch. -/
inductive ViewportOp where
  | pan (dx dy : ℝ)
  | wheel (physical : Point) (deltaY : ℝ)
  | pinch (physicalMid : Point) (scaleFactor panDX panDY : ℝ)

/-- Apply one viewport operation. -/
def applyViewportOp (t : ViewTransform) : ViewportOp → ViewTransform
  | ViewportOp.pan dx dy => panBy t dx dy
  | ViewportOp.wheel p d => handleWheel t p d
  | ViewportOp.pinch m f dx dy => handlePinch t m f dx dy

/-- Apply a sequence of viewport operations, left to right. -/
def applyViewportOps (t : ViewTransform) (ops : List ViewportOp) : ViewTransform :=
  ops.foldl applyViewportOp t

/-- Model of the history state of `useHistory` (`src/unnamed/part_001`):
the snapshot list together with the cursor index. -/
structure History (T : Type) where
  entries : List T
  index : ℕ
deriving DecidableEq

/-- The state `history[index]` currently presented by `useHistory`. -/
def History.present {T : Type} [Inhabited T] (h : History T) : T :=
  h.entries.getI h.index

/-- Model of `useHistory.setState` with a plain new state: a no-op when the
new state equals the present one, otherwise truncate the redo suffix, append,
and move the cursor to the new last index. -/
def History.commit {T : Type} [Inhabited T] [DecidableEq T]
    (h : History T) (s : T) : History T :=
  if h.present = s then h
  else
    let newHistory := h.entries.take (h.index + 1) ++ [s]
    ⟨newHistory, newHistory.length - 1⟩

/-- Model of `useHistory.undo`: decrement the cursor when it is positive. -/
def History.undo {T : Type} (h : History T) : History T :=
  if 0 < h.index then ⟨h.entries, h.index - 1⟩ else h

/-- Model of `useHistory.redo`: increment the cursor when below the last index. -/
def History.redo {T : Type} (h : History T) : History T :=
  if h.index < h.entries.length - 1 then ⟨h.entries, h.index + 1⟩ else h

/-- Model of the returned `canUndo` flag: `index > 0`. -/
def History.canUndo {T : Type} (h : History T) : Prop := 0 < h.index

/-- Model of the returned `canRedo` flag: `index < history.length - 1`. -/
def History.canRedo {T : Type} (h : History T) : Prop :=
  h.index < h.entries.length - 1

instance {T : Type} (h : History T) : Decidable h.canUndo :=
  inferInstanceAs (Decidable (0 < h.index))

instance {T : Type} (h : History T) : Decidable h.canRedo :=
  inferInstanceAs (Decidable (h.index < h.entries.length - 1))

/-- Stroke hit test from `eraseAtPoint` in `Canvas.tsx`: some point of the
stroke lies strictly within `eraserRadius + strokeWidth / 2` of the query. -/
def strokeHitByEraser (stroke : Stroke) (point : Point) (eraserRadius : ℝ) : Prop :=
  ∃ p ∈ stroke.points, getDistance p point < eraserRadius + stroke.strokeWidth / 2

/-- Text hit test from `eraseAtPoint` in `Canvas.tsx`: the query point lies
strictly inside the text bounds inflated by the eraser radius. -/
def textHitByEraser (t : TextItem) (point : Point) (eraserRadius : ℝ) : Prop :=
  point.x > t.bounds.x - eraserRadius ∧
    point.x < t.bounds.x + t.bounds.width + eraserRadius ∧
    point.y > t.bounds.y - eraserRadius ∧
    point.y < t.bounds.y + t.bounds.height + eraserRadius

open Classical in
/-- Model of the id collection performed by `eraseAtPoint` in `Canvas.tsx`:
the ids of hit strokes and hit texts, with `eraserRadius = size / 2`. -/
def eraseAtPoint (eraserSize : ℝ) (strokes : List Stroke) (texts : List TextItem)
    (point : Point) : List ℤ × List ℤ :=
  let eraserRadius := eraserSize / 2
  ((strokes.filter fun s => decide (strokeHitByEraser s point eraserRadius)).map Stroke.id,
   (texts.filter fun t => decide (textHitByEraser t point eraserRadius)).map TextItem.id)

open Classical in
/-- Model of `handleItemsDelete` from `EditorView.tsx`: early return when both
id lists are empty, otherwise filter the deleted ids out of the page. -/
def handleItemsDelete (page : Page) (strokeIds textIds : List ℤ) : Page :=
  if strokeIds.length = 0 ∧ textIds.length = 0 then page
  else
    { page with
      strokes := page.strokes.filter fun s => decide (s.id ∉ strokeIds),
      texts := page.texts.filter fun t => decide (t.id ∉ textIds) }

/-- Model of the guarded callback at the end of `eraseAtPoint`: the deletion
callback `onItemsDelete` fires only when at least one id was collected. -/
def eraseCallbackAtPoint (eraserSize : ℝ) (page : Page) (point : Point) :
    Option (List ℤ × List ℤ) :=
  let ids := eraseAtPoint eraserSize page.strokes page.texts point
  if 0 < ids.1.length ∨ 0 < ids.2.length then some ids else none

/-- An eraser step on the current page: `eraseAtPoint` followed, when the
callback fires, by `handleItemsDelete`. -/
def eraseOperation (eraserSize : ℝ) (page : Page) (point : Point) : Page :=
  match eraseCallbackAtPoint eraserSize page point with
  | none => page
  | some ids => handleItemsDelete page ids.1 ids.2

instance : DecidableEq Page := Classical.decEq _

/-- An eraser step threaded through the history: deletions reach the model
via `updateCurrentPage`/`setState`, so a fired callback becomes a commit. -/
def eraseHistoryStep (eraserSize : ℝ) (hist : History Page) (point : Point) :
    History Page :=
  let page := hist.present
  match eraseCallbackAtPoint eraserSize page point with
  | none => hist
  | some ids => hist.commit (handleItemsDelete page ids.1 ids.2)

/-- Normalized selection rectangle from the select branch of
`handlePointerMove` in `Canvas.tsx`. -/
def normalizeSelectionRect (start point : Point) : Bounds :=
  ⟨min start.x point.x, min start.y point.y,
   |start.x - point.x|, |start.y - point.y|⟩

/-- Model of the select branch of `handlePointerUp` in `Canvas.tsx`: a live
selection rectangle with either dimension below 10 is discarded. -/
def finalizeSelection : Option Bounds → Option Bounds
  | none => none
  | some rect => if rect.width < 10 ∨ rect.height < 10 then none else some rect

/-- Model of `BackgroundType` from `App.tsx`. -/
inductive BackgroundType where
  | copybook | grid | borderline | plain
deriving DecidableEq, Inhabited

/-- Model of `CanvasStyle` from `EditorView.tsx`. -/
structure CanvasStyle where
  backgroundColor : String
  fontFamily : String
  fontSize : ℝ
  backgroundType : BackgroundType
deriving Inhabited

/-- Model of the drawing-model part of `AppState` from `EditorView.tsx`. -/
structure AppState where
  pages : List Page
  currentPageIndex : ℕ
  canvasStyle : CanvasStyle
deriving Inhabited

instance : DecidableEq AppState := Classical.decEq _

/-- Model of `updateCurrentPage` from `EditorView.tsx`: replace the page at
the current index by its image under the updater. -/
def updateCurrentPage (st : AppState) (updater : Page → Page) : AppState :=
  { st with
    pages := st.pages.set st.currentPageIndex (updater (st.pages.getI st.currentPageIndex)) }

/-- The error message set by `handleRecognize` on failure. -/
def recognitionErrorMessage : String :=
  "Failed to recognize handwriting. Please try again."

/-- Model of `handleRecognize` from `EditorView.tsx`. The asynchronous
`recognizeHandwriting` call is represented by its outcome: `Except.error`
when it throws, `Except.ok text` otherwise. The result is the new history,
the surfaced error message, and the final `isLoading` flag. -/
def handleRecognize (hist : History AppState) (result : Except String String)
    (bounds : Bounds) (newId : ℤ) : History AppState × Option String × Bool :=
  match result with
  | Except.error _ => (hist, some recognitionErrorMessage, false)
  | Except.ok text =>
      let st := hist.present
      let style := st.canvasStyle
      let finalBounds :=
        if style.backgroundType = BackgroundType.copybook then
          let lineSpacing : ℝ := 80
          let originalBaselineY := bounds.y + style.fontSize
          let nearestLineY := ((round (originalBaselineY / lineSpacing) : ℤ) : ℝ) * lineSpacing
          { bounds with y := nearestLineY - style.fontSize }
        else bounds
      let newText : TextItem := ⟨newId, text, finalBounds, style.fontFamily, style.fontSize⟩
      (hist.commit (updateCurrentPage st fun page =>
          { page with strokes := [], texts := page.texts ++ [newText] }),
       none, false)

end

/-- C6: synthesizing a rectangle shape from `(0,0)` to `(100,50)` with stroke
width `5` yields exactly one stroke whose closed point sequence is
`[(0,0),(100,0),(100,50),(0,50),(0,0)]` and whose `strokeWidth` is `5`. -/
theorem rectangle_drag_scenario (idBase : ℤ) :
    createStrokesForShape idBase ⟨0, 0⟩ ⟨100, 50⟩ ShapeType.rectangle 5 "#000000" =
      [⟨idBase, [⟨0, 0⟩, ⟨100, 0⟩, ⟨100, 50⟩, ⟨0, 50⟩, ⟨0, 0⟩], "pen", 5, "#000000"⟩] := by
  simp [createStrokesForShape, strokesFromPoints]

/-- C2: a zoom anchored at a focal device point, recomputing
`offset' = focal - (focal - offset) * (newScale / scale)` as the wheel-zoom
handler does, leaves the focal point's world coordinate unchanged for every
new scale within `[MIN_ZOOM, MAX_ZOOM]` (the current scale being in range). -/
theorem zoom_anchoring_preserves_focal_world (t : ViewTransform) (focal : Point)
    (s' : ℝ) (ht : MIN_ZOOM ≤ t.scale) (h1 : MIN_ZOOM ≤ s') (h2 : s' ≤ MAX_ZOOM) :
    toWorld (zoomAt t focal s') focal = toWorld t focal := by
  have hs : t.scale ≠ 0 := by
    unfold MIN_ZOOM at ht; intro h; rw [h] at ht; norm_num at ht
  have hs' : s' ≠ 0 := by
    unfold MIN_ZOOM at h1; intro h; rw [h] at h1; norm_num at h1
  unfold toWorld zoomAt
  simp only [Point.mk.injEq]
  constructor <;> (field_simp; ring)

/-- Witness for C2 at `t = ⟨1, 3, 7⟩`, `focal = (10, 20)`, `s' = 2`. -/
theorem zoom_anchoring_preserves_focal_world_witness :
    toWorld (zoomAt ⟨1, 3, 7⟩ ⟨10, 20⟩ 2) ⟨10, 20⟩ = toWorld ⟨1, 3, 7⟩ ⟨10, 20⟩ :=
  zoom_anchoring_preserves_focal_world ⟨1, 3, 7⟩ ⟨10, 20⟩ 2
    (by unfold MIN_ZOOM; norm_num) (by unfold MIN_ZOOM; norm_num)
    (by unfold MAX_ZOOM; norm_num)

/-- C7: a completed select-tool drag whose normalized rectangle has width or
height below 10 retains no selection on pointer release. -/
theorem selection_discard_small_rect (start point : Point)
    (hsmall : |start.x - point.x| < 10 ∨ |start.y - point.y| < 10) :
    finalizeSelection (some (normalizeSelectionRect start point)) = none := by
  unfold finalizeSelection normalizeSelectionRect
  exact if_pos hsmall

/-- Witness for C7 at a drag from `(0,0)` to `(3,100)`. -/
theorem selection_discard_small_rect_witness :
    finalizeSelection (some (normalizeSelectionRect ⟨0, 0⟩ ⟨3, 100⟩)) = none :=
  selection_discard_small_rect ⟨0, 0⟩ ⟨3, 100⟩ (Or.inl (by norm_num))

/-- C8: starting from the initial transform, every sequence of pan, wheel
zoom and pinch-zoom operations keeps the scale within
`[MIN_ZOOM, MAX_ZOOM] = [0.2, 5]`; each zoom clamps before recomputing the
anchored offset. -/
theorem scale_clamped_invariant (ops : List ViewportOp) :
    MIN_ZOOM ≤ (applyViewportOps initialViewTransform ops).scale ∧
      (applyViewportOps initialViewTransform ops).scale ≤ MAX_ZOOM := by
  have hclamp : ∀ s : ℝ, MIN_ZOOM ≤ clampZoom s ∧ clampZoom s ≤ MAX_ZOOM := by
    intro s
    unfold clampZoom
    refine ⟨le_min (le_trans ?_ (le_max_right s MIN_ZOOM)) ?_, min_le_right _ _⟩
    · exact le_refl _
    · unfold MIN_ZOOM MAX_ZOOM; norm_num
  have hstep : ∀ (t : ViewTransform) (op : ViewportOp),
      MIN_ZOOM ≤ t.scale ∧ t.scale ≤ MAX_ZOOM →
      MIN_ZOOM ≤ (applyViewportOp t op).scale ∧
        (applyViewportOp t op).scale ≤ MAX_ZOOM := by
    intro t op hty
    cases op with
    | pan dx dy => exact hty
    | wheel p d => exact hclamp _
    | pinch m f dx dy => exact hclamp _
  have main : ∀ (t : ViewTransform), MIN_ZOOM ≤ t.scale ∧ t.scale ≤ MAX_ZOOM →
      MIN_ZOOM ≤ (applyViewportOps t ops).scale ∧
        (applyViewportOps t ops).scale ≤ MAX_ZOOM := by
    induction ops with
    | nil => intro t ht; exact ht
    | cons op rest ih => intro t ht; exact ih _ (hstep t op ht)
  exact main _ (by unfold initialViewTransform MIN_ZOOM MAX_ZOOM; norm_num)

lemma History.present_commit {T : Type} [Inhabited T] [DecidableEq T]
    (h : History T) (s : T) : (h.commit s).present = s := by
  by_cases hc : h.present = s
  · unfold History.commit
    rw [if_pos hc]
    exact hc
  · unfold History.commit
    rw [if_neg hc]
    show History.present
      ⟨h.entries.take (h.index + 1) ++ [s],
       (h.entries.take (h.index + 1) ++ [s]).length - 1⟩ = s
    unfold History.present
    have hlen : (h.entries.take (h.index + 1) ++ [s]).length - 1 =
        (h.entries.take (h.index + 1)).length := by
      simp
    rw [hlen]
    rw [List.getI_append_right _ _ _ (le_refl _)]
    simp [List.getI]

/-- C3 counterexample: with history `[0, 1]` and cursor `0`, committing the
state `0` (value-equal to the state at the cursor) twice is a no-op, yet
`canRedo` remains true afterwards — not false as the claim demands. -/
theorem commit_equal_canRedo_cex :
    History.commit (History.commit (⟨[0, 1], 0⟩ : History ℕ) 0) 0 = ⟨[0, 1], 0⟩ ∧
      History.canRedo (History.commit (History.commit (⟨[0, 1], 0⟩ : History ℕ) 0) 0) := by
  constructor <;> decide

/-- C3 (amended): committing a state value-equal to the state at the cursor
is a full no-op (no new entry, no truncation, cursor unchanged); a commit
immediately repeated is absorbed, leaving the history length unchanged, and
whenever the first commit actually appended, `canRedo` is false after it. -/
theorem commit_dedup_noop {T : Type} [Inhabited T] [DecidableEq T]
    (h : History T) (s : T) :
    (h.present = s → h.commit s = h) ∧
      ((h.commit s).commit s = h.commit s) ∧
      (((h.commit s).commit s).entries.length = (h.commit s).entries.length) ∧
      (h.present ≠ s → ¬ (h.commit s).canRedo) := by
  have habs : (h.commit s).commit s = h.commit s := by
    have hp := History.present_commit h s
    set k := h.commit s with hk
    unfold History.commit
    rw [if_pos hp]
  refine ⟨?_, habs, by rw [habs], ?_⟩
  · intro heq
    unfold History.commit
    rw [if_pos heq]
  · intro hne
    unfold History.commit
    rw [if_neg hne]
    show ¬ History.canRedo
      ⟨h.entries.take (h.index + 1) ++ [s],
       (h.entries.take (h.index + 1) ++ [s]).length - 1⟩
    unfold History.canRedo
    dsimp only
    omega

/-- Witness for C3's amended theorem on concrete natural-number histories. -/
theorem commit_dedup_noop_witness :
    ((⟨[0], 0⟩ : History ℕ).commit 0 = ⟨[0], 0⟩) ∧
      (((⟨[0], 0⟩ : History ℕ).commit 0).commit 0 = (⟨[0], 0⟩ : History ℕ).commit 0) ∧
      (¬ ((⟨[0], 0⟩ : History ℕ).commit 1).canRedo) :=
  ⟨(commit_dedup_noop (⟨[0], 0⟩ : History ℕ) 0).1 (by decide),
   (commit_dedup_noop (⟨[0], 0⟩ : History ℕ) 0).2.1,
   (commit_dedup_noop (⟨[0], 0⟩ : History ℕ) 1).2.2.2 (by decide)⟩

/-- C4: for a valid history with cursor above 0, `undo(); redo()` restores
the history and its presented state exactly; `undo` decrements the cursor
floored at 0 (no-op at 0) and `redo` increments it capped at the last index
(no-op at the last index). -/
theorem undo_redo_inverse {T : Type} [Inhabited T] (h : History T) :
    (0 < h.index → h.index < h.entries.length → h.undo.redo = h) ∧
      (0 < h.index → h.index < h.entries.length →
        h.undo.redo.present = h.present) ∧
      (h.undo.index = h.index - 1) ∧
      (h.index = 0 → h.undo = h) ∧
      (h.index < h.entries.length - 1 → h.redo.index = h.index + 1) ∧
      (h.entries.length - 1 ≤ h.index → h.redo = h) := by
  obtain ⟨entries, index⟩ := h
  dsimp only
  have hmain : 0 < index → index < entries.length →
      History.redo (History.undo ⟨entries, index⟩) = ⟨entries, index⟩ := by
    intro hpos hvalid
    unfold History.undo
    dsimp only
    rw [if_pos hpos]
    unfold History.redo
    dsimp only
    rw [if_pos (show index - 1 < entries.length - 1 by omega)]
    have harith : index - 1 + 1 = index := by omega
    rw [harith]
  refine ⟨hmain, ?_, ?_, ?_, ?_, ?_⟩
  · intro hpos hvalid
    rw [hmain hpos hvalid]
  · unfold History.undo
    dsimp only
    by_cases hpos : 0 < index
    · rw [if_pos hpos]
    · rw [if_neg hpos]
      dsimp only
      omega
  · intro hzero
    unfold History.undo
    dsimp only
    rw [if_neg (by omega)]
  · intro hlt
    unfold History.redo
    dsimp only
    rw [if_pos hlt]
  · intro hge
    unfold History.redo
    dsimp only
    rw [if_neg (by omega)]

/-- Witness for C4 on the concrete history `⟨[10, 20], 1⟩`. -/
theorem undo_redo_inverse_witness :
    ((⟨[10, 20], 1⟩ : History ℕ).undo.redo = ⟨[10, 20], 1⟩) ∧
      ((⟨[10, 20], 1⟩ : History ℕ).undo.redo.present =
        (⟨[10, 20], 1⟩ : History ℕ).present) ∧
      ((⟨[10, 20], 0⟩ : History ℕ).undo = ⟨[10, 20], 0⟩) ∧
      ((⟨[10, 20], 0⟩ : History ℕ).redo.index = 1) ∧
      ((⟨[10, 20], 1⟩ : History ℕ).redo = ⟨[10, 20], 1⟩) :=
  ⟨(undo_redo_inverse ⟨[10, 20], 1⟩).1 (by decide) (by decide),
   (undo_redo_inverse ⟨[10, 20], 1⟩).2.1 (by decide) (by decide),
   (undo_redo_inverse ⟨[10, 20], 0⟩).2.2.2.1 rfl,
   (undo_redo_inverse ⟨[10, 20], 0⟩).2.2.2.2.1 (by decide),
   (undo_redo_inverse ⟨[10, 20], 1⟩).2.2.2.2.2 (by decide)⟩

/-- C9: when the asynchronous recognition call fails, the history — and with
it the whole drawing model — is left unchanged, no text is inserted and no
stroke is deleted; only the auto-expiring error message is surfaced and the
loading flag is cleared. -/
theorem recognize_failure_model_unchanged (hist : History AppState)
    (bounds : Bounds) (newId : ℤ) (result : Except String String) (e : String)
    (hfail : result = Except.error e) :
    (handleRecognize hist result bounds newId).1 = hist ∧
      (handleRecognize hist result bounds newId).2.1 = some recognitionErrorMessage ∧
      (handleRecognize hist result bounds newId).2.2 = false := by
  subst hfail
  unfold handleRecognize
  exact ⟨rfl, rfl, rfl⟩

/-- Witness for C9 on a concrete one-page state and a failing call. -/
theorem recognize_failure_model_unchanged_witness :
    (handleRecognize
        (⟨[⟨[⟨1, [], []⟩], 0, ⟨"#fef3c7", "Caveat", 48, BackgroundType.copybook⟩⟩], 0⟩ :
          History AppState)
        (Except.error "network error") ⟨0, 0, 100, 50⟩ 7).1 =
      (⟨[⟨[⟨1, [], []⟩], 0, ⟨"#fef3c7", "Caveat", 48, BackgroundType.copybook⟩⟩], 0⟩ :
        History AppState) :=
  (recognize_failure_model_unchanged
    ⟨[⟨[⟨1, [], []⟩], 0, ⟨"#fef3c7", "Caveat", 48, BackgroundType.copybook⟩⟩], 0⟩
    ⟨0, 0, 100, 50⟩ 7 (Except.error "network error") "network error" rfl).1

lemma dist_lt_two_of_small {p q : Point} (hw : |q.x - p.x| < 1)
    (hh : |q.y - p.y| < 1) : getDistance p q < 2 := by
  unfold getDistance
  rw [Real.sqrt_lt' (by norm_num : (0:ℝ) < 2)]
  nlinarith [abs_nonneg (q.x - p.x), abs_nonneg (q.y - p.y),
    sq_abs (q.x - p.x), sq_abs (q.y - p.y)]

lemma radius_lt_two_of_small {w h : ℝ} (hw : |w| < 1) (hh : |h| < 1) :
    Real.sqrt ((|w| / 2) * (|w| / 2) + (|h| / 2) * (|h| / 2)) < 2 := by
  rw [Real.sqrt_lt' (by norm_num : (0:ℝ) < 2)]
  nlinarith [abs_nonneg w, abs_nonneg h]

/-- C1 counterexample: a fully degenerate rectangle drag (start = end) still
yields a stroke — the rectangle branch has no degenerate-drag guard, so no
minimal drag rectangle makes synthesis return the empty list for it. -/
theorem degenerate_rectangle_nonempty_cex :
    createStrokesForShape 0 ⟨0, 0⟩ ⟨0, 0⟩ ShapeType.rectangle 5 "#000000" ≠ [] := by
  simp [createStrokesForShape, strokesFromPoints]

/-- C1 (amended): for drags with both dimensions below 1 world unit,
synthesis returns the empty list exactly for the guarded shape kinds —
circle, oval, triangle, the polygon family, and the 3-D kinds; rectangle,
square, line, arrow and rightTriangle always return a non-empty stroke
list, even for a zero-size drag. -/
theorem degenerate_drag_empty_iff_guarded (idBase : ℤ) (start finish : Point)
    (strokeWidth : ℝ) (color : String) (ty : ShapeType)
    (hw : |finish.x - start.x| < 1) (hh : |finish.y - start.y| < 1) :
    (createStrokesForShape idBase start finish ty strokeWidth color = [] ↔
      hasDegenerateGuard ty = true) := by
  have hrx : |finish.x - start.x| / 2 < 1 := by
    have := abs_nonneg (finish.x - start.x); linarith
  have hrx2 : |finish.x - start.x| / 2 < 2 := by linarith
  have hw5 : |finish.x - start.x| < 5 := by linarith
  have hdist : getDistance start finish < 2 := dist_lt_two_of_small hw hh
  have hrad : Real.sqrt ((|finish.x - start.x| / 2) * (|finish.x - start.x| / 2) +
      (|finish.y - start.y| / 2) * (|finish.y - start.y| / 2)) < 2 :=
    radius_lt_two_of_small hw hh
  cases ty
  case rectangle => simp [createStrokesForShape, strokesFromPoints, hasDegenerateGuard]
  case square => simp [createStrokesForShape, strokesFromPoints, hasDegenerateGuard]
  case circle => simp [createStrokesForShape, hasDegenerateGuard, hrx]
  case oval => simp [createStrokesForShape, hasDegenerateGuard, hrx]
  case line => simp [createStrokesForShape, strokesFromPoints, hasDegenerateGuard]
  case arrow => simp [createStrokesForShape, hasDegenerateGuard]
  case triangle => simp [createStrokesForShape, hasDegenerateGuard, hdist]
  case rightTriangle => simp [createStrokesForShape, strokesFromPoints, hasDegenerateGuard]
  case rhombus => simp [createStrokesForShape, hasDegenerateGuard, hrad]
  case parallelogram => simp [createStrokesForShape, hasDegenerateGuard, hrad]
  case trapezoid => simp [createStrokesForShape, hasDegenerateGuard, hrad]
  case pentagon => simp [createStrokesForShape, hasDegenerateGuard, hrad]
  case hexagon => simp [createStrokesForShape, hasDegenerateGuard, hrad]
  case star => simp [createStrokesForShape, hasDegenerateGuard, hrad]
  case cuboid => simp [createStrokesForShape, hasDegenerateGuard, hw5]
  case cone => simp [createStrokesForShape, hasDegenerateGuard, hrx]
  case pyramid => simp [createStrokesForShape, hasDegenerateGuard, hw5]
  case cylinder => simp [createStrokesForShape, hasDegenerateGuard, hrx]
  case sphere => simp [createStrokesForShape, hasDegenerateGuard, hrx2]

/-- Witness for C1's amended theorem: a zero-size circle drag yields no
strokes, matching the guard classification. -/
theorem degenerate_drag_empty_iff_guarded_witness :
    (createStrokesForShape 0 ⟨0, 0⟩ ⟨0, 0⟩ ShapeType.circle 5 "#000000" = [] ↔
      hasDegenerateGuard ShapeType.circle = true) :=
  degenerate_drag_empty_iff_guarded 0 ⟨0, 0⟩ ⟨0, 0⟩ 5 "#000000" ShapeType.circle
    (by norm_num) (by norm_num)

lemma mem_eraseAtPoint_fst {eraserSize : ℝ} {strokes : List Stroke}
    {texts : List TextItem} {point : Point} {s : Stroke}
    (hs : s ∈ strokes) (hhit : strokeHitByEraser s point (eraserSize / 2)) :
    s.id ∈ (eraseAtPoint eraserSize strokes texts point).1 := by
  unfold eraseAtPoint
  dsimp only
  refine List.mem_map.mpr ⟨s, List.mem_filter.mpr ⟨hs, ?_⟩, rfl⟩
  simp only [decide_eq_true_eq]
  exact hhit

lemma of_mem_eraseAtPoint_fst {eraserSize : ℝ} {strokes : List Stroke}
    {texts : List TextItem} {point : Point} {i : ℤ}
    (hi : i ∈ (eraseAtPoint eraserSize strokes texts point).1) :
    ∃ s ∈ strokes, strokeHitByEraser s point (eraserSize / 2) ∧ s.id = i := by
  unfold eraseAtPoint at hi
  dsimp only at hi
  obtain ⟨s, hsf, hsid⟩ := List.mem_map.mp hi
  obtain ⟨hsmem, hdec⟩ := List.mem_filter.mp hsf
  simp only [decide_eq_true_eq] at hdec
  exact ⟨s, hsmem, hdec, hsid⟩

/-- C5: under unique stroke ids, a stroke all of whose points are farther
than `eraserRadius + strokeWidth/2` from the query point survives an erase
at that point; a stroke with at least one point strictly within that radius
is deleted. -/
theorem eraser_containment (eraserSize : ℝ) (page : Page) (point : Point)
    (stroke : Stroke) (hmem : stroke ∈ page.strokes)
    (hids : (page.strokes.map Stroke.id).Nodup) :
    ((∀ p ∈ stroke.points,
        eraserSize / 2 + stroke.strokeWidth / 2 < getDistance p point) →
      stroke ∈ (eraseOperation eraserSize page point).strokes) ∧
    ((∃ p ∈ stroke.points,
        getDistance p point < eraserSize / 2 + stroke.strokeWidth / 2) →
      stroke ∉ (eraseOperation eraserSize page point).strokes) := by
  constructor
  · intro hfar
    have hnotin : stroke.id ∉ (eraseAtPoint eraserSize page.strokes page.texts point).1 := by
      intro hin
      obtain ⟨s, hsmem, hshit, hsid⟩ := of_mem_eraseAtPoint_fst hin
      have hss : s = stroke := List.inj_on_of_nodup_map hids hsmem hmem hsid
      rw [hss] at hshit
      obtain ⟨p, hp, hplt⟩ := hshit
      exact absurd hplt (not_lt.mpr (le_of_lt (hfar p hp)))
    unfold eraseOperation eraseCallbackAtPoint
    dsimp only
    by_cases hcb : 0 < (eraseAtPoint eraserSize page.strokes page.texts point).1.length ∨
        0 < (eraseAtPoint eraserSize page.strokes page.texts point).2.length
    · rw [if_pos hcb]
      dsimp only
      unfold handleItemsDelete
      by_cases hempty :
          (eraseAtPoint eraserSize page.strokes page.texts point).1.length = 0 ∧
            (eraseAtPoint eraserSize page.strokes page.texts point).2.length = 0
      · rw [if_pos hempty]
        exact hmem
      · rw [if_neg hempty]
        dsimp only
        refine List.mem_filter.mpr ⟨hmem, ?_⟩
        simp only [decide_eq_true_eq]
        exact hnotin
    · rw [if_neg hcb]
      exact hmem
  · intro hhit
    have hin : stroke.id ∈ (eraseAtPoint eraserSize page.strokes page.texts point).1 :=
      mem_eraseAtPoint_fst hmem hhit
    have hlen : 0 < (eraseAtPoint eraserSize page.strokes page.texts point).1.length :=
      List.length_pos.mpr (List.ne_nil_of_mem hin)
    unfold eraseOperation eraseCallbackAtPoint
    dsimp only
    rw [if_pos (Or.inl hlen)]
    dsimp only
    unfold handleItemsDelete
    rw [if_neg (by omega)]
    dsimp only
    intro habs
    obtain ⟨hmem2, hpred⟩ := List.mem_filter.mp habs
    simp only [decide_eq_true_eq] at hpred
    exact hpred hin

/-- Witness for C5: erasing with size 4 at the origin deletes the stroke
passing through the origin and keeps the stroke 100 units away. -/
theorem eraser_containment_witness :
    ((⟨11, [⟨100, 0⟩], "pen", 2, "#000000"⟩ : Stroke) ∈
        (eraseOperation 4
          ⟨1, [⟨10, [⟨0, 0⟩], "pen", 2, "#000000"⟩,
               ⟨11, [⟨100, 0⟩], "pen", 2, "#000000"⟩], []⟩ ⟨0, 0⟩).strokes) ∧
      ((⟨10, [⟨0, 0⟩], "pen", 2, "#000000"⟩ : Stroke) ∉
        (eraseOperation 4
          ⟨1, [⟨10, [⟨0, 0⟩], "pen", 2, "#000000"⟩,
               ⟨11, [⟨100, 0⟩], "pen", 2, "#000000"⟩], []⟩ ⟨0, 0⟩).strokes) := by
  have hnodup : (([⟨10, [⟨0, 0⟩], "pen", 2, "#000000"⟩,
      ⟨11, [⟨100, 0⟩], "pen", 2, "#000000"⟩] : List Stroke).map Stroke.id).Nodup := by
    simp
  have hsqrt : (3:ℝ) < Real.sqrt 10000 := by
    rw [show (10000:ℝ) = 100 ^ 2 by norm_num, Real.sqrt_sq (by norm_num : (0:ℝ) ≤ 100)]
    norm_num
  constructor
  · refine (eraser_containment 4 _ ⟨0, 0⟩ _ (by simp) hnodup).1 ?_
    intro p hp
    simp only [List.mem_singleton] at hp
    subst hp
    have hd : getDistance ⟨100, 0⟩ (⟨0, 0⟩ : Point) = Real.sqrt 10000 := by
      unfold getDistance
      norm_num
    rw [hd]
    linarith [hsqrt]
  · refine (eraser_containment 4 _ ⟨0, 0⟩ _ (by simp) hnodup).2 ?_
    refine ⟨⟨0, 0⟩, by simp, ?_⟩
    have hd0 : getDistance (⟨0, 0⟩ : Point) ⟨0, 0⟩ = 0 := by
      unfold getDistance
      norm_num
    rw [hd0]
    norm_num

/-- C10: when no stroke has a point strictly within the inflated eraser
radius and no text's inflated bounds strictly contain the query point, the
deletion callback does not fire, the page is unchanged and the history gains
no entry. -/
theorem eraser_miss_frame_effect (eraserSize : ℝ) (hist : History Page)
    (point : Point)
    (hstrokes : ∀ s ∈ hist.present.strokes, ¬ strokeHitByEraser s point (eraserSize / 2))
    (htexts : ∀ t ∈ hist.present.texts, ¬ textHitByEraser t point (eraserSize / 2)) :
    eraseCallbackAtPoint eraserSize hist.present point = none ∧
      eraseOperation eraserSize hist.present point = hist.present ∧
      eraseHistoryStep eraserSize hist point = hist := by
  have hs0 : (eraseAtPoint eraserSize hist.present.strokes hist.present.texts point).1 = [] := by
    unfold eraseAtPoint
    dsimp only
    rw [List.map_eq_nil_iff, List.filter_eq_nil_iff]
    intro s hs
    simpa using hstrokes s hs
  have ht0 : (eraseAtPoint eraserSize hist.present.strokes hist.present.texts point).2 = [] := by
    unfold eraseAtPoint
    dsimp only
    rw [List.map_eq_nil_iff, List.filter_eq_nil_iff]
    intro t ht
    simpa using htexts t ht
  have hcb : eraseCallbackAtPoint eraserSize hist.present point = none := by
    unfold eraseCallbackAtPoint
    dsimp only
    rw [if_neg (by rw [hs0, ht0]; simp)]
  refine ⟨hcb, ?_, ?_⟩
  · unfold eraseOperation
    rw [hcb]
  · unfold eraseHistoryStep
    dsimp only
    rw [hcb]

/-- Witness for C10: a size-20 erase at the origin misses a far stroke and a
far text, so the page and the history are unchanged. -/
theorem eraser_miss_frame_effect_witness :
    eraseHistoryStep 20
      (⟨[⟨1, [⟨10, [⟨100, 0⟩], "pen", 2, "#000000"⟩],
          [⟨20, "hi", ⟨500, 500, 50, 20⟩, "Caveat", 48⟩]⟩], 0⟩ : History Page)
      ⟨0, 0⟩ =
      ⟨[⟨1, [⟨10, [⟨100, 0⟩], "pen", 2, "#000000"⟩],
          [⟨20, "hi", ⟨500, 500, 50, 20⟩, "Caveat", 48⟩]⟩], 0⟩ := by
  have hsqrt : ¬ (Real.sqrt 10000 < (11:ℝ)) := by
    rw [show (10000:ℝ) = 100 ^ 2 by norm_num, Real.sqrt_sq (by norm_num : (0:ℝ) ≤ 100)]
    norm_num
  refine (eraser_miss_frame_effect 20
      ⟨[⟨1, [⟨10, [⟨100, 0⟩], "pen", 2, "#000000"⟩],
          [⟨20, "hi", ⟨500, 500, 50, 20⟩, "Caveat", 48⟩]⟩], 0⟩ ⟨0, 0⟩ ?_ ?_).2.2
  · intro s hs
    simp only [History.present, List.getI_cons_zero, List.mem_singleton] at hs
    subst hs
    intro hcon
    obtain ⟨p, hp, hplt⟩ := hcon
    simp only [List.mem_singleton] at hp
    subst hp
    have hd : getDistance ⟨100, 0⟩ (⟨0, 0⟩ : Point) = Real.sqrt 10000 := by
      unfold getDistance
      norm_num
    rw [hd] at hplt
    refine hsqrt ?_
    linarith
  · intro t ht
    simp only [History.present, List.getI_cons_zero, List.mem_singleton] at ht
    subst ht
    intro hcon
    obtain ⟨h1, _⟩ := hcon
    norm_num at h1

end WriteApp
